import Mathlib

/-!
# Verification of the ISEE combinatorial execution pipeline

A shallow embedding, in Lean 4, of the core pipeline of the ISEE framework
(`main.py`, `instruction_templates.py`, `query_generator.py`,
`domain_manager.py`, `model_api_integration.py`), together with proofs and
refutations of the specified behavioural properties.

Modelling conventions, chosen to mirror the Python source:

* Python `dict`s are insertion-ordered association lists
  (`List (String × α)`); `d[k] = v` is `setVal` (update in place if the key
  is present, else append at the end), `d.get`/`in` is `getVal`,
  `dict.update` is `updateAll`.
* Python numbers appearing in results (timestamps, scores, averages,
  generation parameters) are modelled as rationals `ℚ`.
* Exceptions are modelled with `Except String`; a raised exception carries
  its message.
* JSON documents (`json.dump`/`json.load`) are modelled by the value type
  `J`; serialisation to a file and parsing back is the identity on `J`
  (Python's `json` round-trips strings, numbers, booleans, null, lists and
  string-keyed objects losslessly).
* `str.join` is `joinSep`, `str.split` is `String.splitOn`, slicing by
  character counts is `String.take`/`List.take`/`List.drop`.
* Template strings (`"... {domain} ..."`) are represented in parsed form as
  a list of segments (literal text / named placeholder); `str.format`
  becomes segment-wise substitution that fails on a missing placeholder,
  exactly as `InstructionTemplate.format` wraps the `KeyError` into a
  `ValueError` ("Missing required variable ...").
* External effects (the HTTP call inside `client.generate`, `time.time()`,
  `random.choice`, the presence of `ANTHROPIC_API_KEY`/`OPENAI_API_KEY`)
  are supplied by an environment record `Env`; theorems quantify over all
  environments.
* The stray closing brace on the line following the fallback
  `synthesized_idea` literal in `main.py` (a one-character syntax slip,
  the only token preventing the module from parsing) is ignored: the
  evident intended code is embedded.
-/

namespace ISEE

/-- Lookup in an insertion-ordered dictionary (`k in d` / `d[k]` / `d.get(k)`). -/
def getVal {α : Type} : List (String × α) → String → Option α
  | [], _ => none
  | (k', v) :: rest, k => if k = k' then some v else getVal rest k

/-- Python `d[k] = v` on an insertion-ordered dict: overwrite in place if the
key is present, otherwise append at the end. -/
def setVal {α : Type} : List (String × α) → String → α → List (String × α)
  | [], k, v => [(k, v)]
  | (k', v') :: rest, k, v =>
    if k = k' then (k, v) :: rest else (k', v') :: setVal rest k v

/-- Python `d.update(new)`: successive `d[k] = v` for each entry of `new`. -/
def updateAll {α : Type} (d new : List (String × α)) : List (String × α) :=
  new.foldl (fun acc kv => setVal acc kv.1 kv.2) d

/-- The keys of a dictionary, in order. -/
def keysOf {α : Type} (d : List (String × α)) : List String :=
  d.map Prod.fst

/-- Python `sep.join(parts)`. -/
def joinSep (sep : String) : List String → String
  | [] => ""
  | [s] => s
  | s :: rest => s ++ sep ++ joinSep sep rest

/-- JSON values, as produced and consumed by Python's `json` module. -/
inductive J : Type where
  | null : J
  | bool : Bool → J
  | num : ℚ → J
  | str : String → J
  | arr : List J → J
  | obj : List (String × J) → J

/-! ## Persisted run state (`save_state` / `load_state`, main.py 108–144) -/

/-- The in-memory collections that `save_state` persists: the combination
list and the three maps, each already a JSON-representable Python value. -/
structure PersistState : Type where
  combinations : J
  results : J
  evaluations : J
  synthesized_ideas : J

/-- `save_state` (main.py 108–124): build the four-field state document and
write it with `json.dump`. -/
def save_state (s : PersistState) : J :=
  J.obj [("combinations", s.combinations),
         ("results", s.results),
         ("evaluations", s.evaluations),
         ("synthesized_ideas", s.synthesized_ideas)]

/-- `load_state` (main.py 126–144): read the document with `json.load` and
take each field with `state.get(key, default)`. -/
def load_state (doc : J) : PersistState :=
  let fields := match doc with
    | J.obj kvs => kvs
    | _ => []
  { combinations := (getVal fields "combinations").getD (J.arr [])
    results := (getVal fields "results").getD (J.obj [])
    evaluations := (getVal fields "evaluations").getD (J.obj [])
    synthesized_ideas := (getVal fields "synthesized_ideas").getD (J.obj []) }

/-! ## Combination generation (main.py 146–225) -/

/-- A combination dictionary as built in the nested loops of
`generate_combinations` (main.py 209–217). -/
structure Combination : Type where
  id : String
  model : String
  template : String
  query : String
  domain : String
  deriving DecidableEq

/-- The combination identifier
`f"{model}_{template.id}_{query.id}_{domain.id}"` (main.py 209). -/
def combinationId (model template query domain : String) : String :=
  model ++ "_" ++ template ++ "_" ++ query ++ "_" ++ domain

/-- One combination record (main.py 211–217). -/
def mkCombination (model template query domain : String) : Combination :=
  { id := combinationId model template query domain
    model := model, template := template, query := query, domain := domain }

/-- The Cartesian-product construction of `generate_combinations`
(main.py 202–225), over the already-selected component id lists: the four
nested `for` loops append one combination per
(model, template, query, domain) tuple, in model-major order.  Selection
and random down-sampling of the component lists (main.py 169–200) happen
before this point and are modelled by the lists handed in. -/
def generate_combinations
    (models templates queries domains : List String) : List Combination :=
  models.bind fun model =>
    templates.bind fun template =>
      queries.bind fun query =>
        domains.map fun domain => mkCombination model template query domain

/-! ## Results and synthesized ideas (main.py 334–474, 551–666) -/

/-- Result metadata (main.py 400–405 for the real branch, 468–473 for the
simulation branch): model id, cognitive-style tag, timestamp, and either a
duration (real) or the `simulated` flag. -/
inductive RMeta : Type where
  | real (model template_style : String) (timestamp duration : ℚ)
  | simulated (model template_style : String) (timestamp : ℚ)
  deriving DecidableEq

/-- Whether the metadata carries the `"simulated": True` flag. -/
def RMeta.isSimulated : RMeta → Bool
  | .real _ _ _ _ => false
  | .simulated _ _ _ => true

/-- A stored Result (main.py 396–406 / 464–474). -/
structure Result : Type where
  combination_id : String
  prompt : String
  response : String
  metadata : RMeta
  deriving DecidableEq

/-- Synthesized-idea metadata: the `cluster_based` shape
(main.py 614–619) or the `cross_pollination` shape (main.py 650–654). -/
inductive SMeta : Type where
  | cluster (method : String) (cluster_id cluster_size : ℕ) (average_score : ℚ)
  | cross (method : String) (sources_count : ℕ) (average_score : ℚ)
  deriving DecidableEq

/-- A Synthesized Idea (main.py 608–635, 644–655). -/
structure SynthIdea : Type where
  id : String
  title : String
  description : String
  source_combinations : List String
  text : String
  metadata : SMeta
  deriving DecidableEq

/-- `f"synthesized_idea_{i}"` (main.py 591). -/
def ideaId (i : ℕ) : String := s!"synthesized_idea_{i}"

/-- `sum(score for _, score in cluster) / len(cluster)` (main.py 618). -/
def avgScore (cluster : List (Result × ℚ)) : ℚ :=
  (cluster.map Prod.snd).sum / (cluster.length : ℚ)

/-- The index-based three-way split of `cluster_based` synthesis
(main.py 580–584): `top[:n//3]`, `top[n//3:2*n//3]`, `top[2*n//3:]`. -/
def clustersOf (top : List (Result × ℚ)) : List (List (Result × ℚ)) :=
  let n := top.length
  [top.take (n / 3),
   (top.drop (n / 3)).take (2 * n / 3 - n / 3),
   top.drop (2 * n / 3)]

/-- One synthesized idea from a (non-empty) cluster, 1-based cluster index
`i` (main.py 590–635): if the first result's response text is non-empty the
title is the first line of it of length strictly between 5 and 80 (default
`"Synthesized Idea {i}"`), truncated to 80 characters, and the idea text is
that response; otherwise the placeholder fallback is used. -/
def mkClusterIdea (method : String) (i : ℕ) (cluster : List (Result × ℚ)) :
    SynthIdea :=
  let csize := cluster.length
  let descr := s!"This idea represents a synthesis of {csize} top-ranked responses."
  let sources := cluster.map fun rc => rc.1.combination_id
  let meta := SMeta.cluster method i csize (avgScore cluster)
  match cluster.map fun rc => rc.1.response with
  | [] =>
    { id := ideaId i, title := s!"Synthesized Idea {i}", description := descr
      source_combinations := sources
      text := s!"Synthesized text would extract the common themes and innovative elements from cluster {i}."
      metadata := meta }
  | first :: _ =>
    if 0 < first.length then
      let lines := first.splitOn "\n"
      let title_candidate :=
        (lines.find? fun line => decide (5 < line.length ∧ line.length < 80)).getD
          s!"Synthesized Idea {i}"
      { id := ideaId i, title := title_candidate.take 80, description := descr
        source_combinations := sources, text := first, metadata := meta }
    else
      { id := ideaId i, title := s!"Synthesized Idea {i}", description := descr
        source_combinations := sources
        text := s!"Synthesized text would extract the common themes and innovative elements from cluster {i}."
        metadata := meta }

/-- The single cross-pollination idea (main.py 640–657). -/
def mkCrossIdea (method : String) (top : List (Result × ℚ)) : SynthIdea :=
  let n := top.length
  { id := "synthesized_idea_crossover"
    title := "Cross-Pollinated Innovation"
    description := s!"This idea combines elements from {n} diverse top-ranked responses."
    source_combinations := top.map fun rc => rc.1.combination_id
    text := "Cross-pollinated text would extract complementary elements from different responses and combine them in novel ways."
    metadata := SMeta.cross method n (avgScore top) }

/-- The `for i, cluster in enumerate(clusters, 1)` loop (main.py 586–638):
empty clusters are skipped, each non-empty cluster contributes one entry
under the key `synthesized_idea_{i}`.  Within one invocation the indices
`i` are pairwise distinct so every dict insertion appends a fresh key; the
resulting insertion-ordered dict is this list. -/
def synthesizeClusters (method : String) :
    ℕ → List (List (Result × ℚ)) → List (String × SynthIdea)
  | _, [] => []
  | i, c :: rest =>
    if c.isEmpty then synthesizeClusters method (i + 1) rest
    else (ideaId i, mkClusterIdea method i c) :: synthesizeClusters method (i + 1) rest

/-- `synthesize_ideas` (main.py 551–666) applied to an explicit
`top_results` list and the current stored idea dict; returns the freshly
synthesized dict (the method's return value) and the new stored dict after
`self.synthesized_ideas.update(synthesized)` (main.py 663).  An empty input
returns `{}` without touching the store (main.py 568–570); an unknown
method synthesizes nothing (main.py 659–660). -/
def synthesize_ideas (top_results : List (Result × ℚ)) (method : String)
    (stored : List (String × SynthIdea)) :
    List (String × SynthIdea) × List (String × SynthIdea) :=
  if top_results.isEmpty then ([], stored)
  else
    let synthesized :=
      if method = "cluster_based" then
        synthesizeClusters method 1 (clustersOf top_results)
      else if method = "cross_pollination" then
        [("synthesized_idea_crossover", mkCrossIdea method top_results)]
      else []
    (synthesized, updateAll stored synthesized)

/-! ## Backend client default parameters
(model_api_integration.py 87–93 and 159–165) -/

/-- The parameter-defaulting prologue of `AnthropicClient.generate`
(model_api_integration.py 87–93), viewed from the caller's side:
`params = parameters or {}` makes the local name alias the caller's
dictionary exactly when that dictionary is truthy (non-empty); the two
`params[...] = ...` default assignments then mutate the caller's
dictionary.  This function returns the caller's dictionary as it stands
after the call. -/
def anthropicCallerParamsAfter (parameters : List (String × J)) :
    List (String × J) :=
  if parameters.isEmpty then parameters
  else
    let p₁ := match getVal parameters "max_tokens" with
      | none => setVal parameters "max_tokens" (J.num 1024)
      | some _ => parameters
    match getVal p₁ "temperature" with
    | none => setVal p₁ "temperature" (J.num (7/10))
    | some _ => p₁

/-- The identical parameter-defaulting prologue of `OpenAIClient.generate`
(model_api_integration.py 159–165). -/
def openaiCallerParamsAfter (parameters : List (String × J)) :
    List (String × J) :=
  if parameters.isEmpty then parameters
  else
    let p₁ := match getVal parameters "max_tokens" with
      | none => setVal parameters "max_tokens" (J.num 1024)
      | some _ => parameters
    match getVal p₁ "temperature" with
    | none => setVal p₁ "temperature" (J.num (7/10))
    | some _ => p₁

/-! ## Templates, queries, domains
(instruction_templates.py, query_generator.py, domain_manager.py) -/

/-- One piece of a template string: literal text or a `{name}` placeholder.
Template strings are represented in this parsed form; `str.format`
substitutes the placeholders in order of appearance. -/
inductive Seg : Type where
  | lit (s : String)
  | var (name : String)
  deriving DecidableEq

/-- An instruction template (instruction_templates.py 12–42). -/
structure InstructionTemplate : Type where
  id : String
  name : String
  template : List Seg
  metadata : List (String × String)
  deriving DecidableEq

/-- `str.format(**variables)` over the parsed segments: substitute each
placeholder from the variable mapping, failing on the first placeholder
absent from it — `InstructionTemplate.format` wraps that `KeyError` into a
`ValueError` naming the missing variable (instruction_templates.py 29–42). -/
def formatSegs (vars : List (String × String)) (tname : String) :
    List Seg → Except String String
  | [] => .ok ""
  | Seg.lit s :: rest => (formatSegs vars tname rest).map (s ++ ·)
  | Seg.var n :: rest =>
    match getVal vars n with
    | none => .error s!"Missing required variable {n} for template {tname}"
    | some v => (formatSegs vars tname rest).map (v ++ ·)

/-- `InstructionTemplate.format` (instruction_templates.py 29–42). -/
def InstructionTemplate.format (t : InstructionTemplate)
    (vars : List (String × String)) : Except String String :=
  formatSegs vars t.name t.template

/-- A query (query_generator.py 13–26); variable values are strings and
the `vars` field embeds the Python attribute `variables`. -/
structure Query : Type where
  id : String
  text : String
  vars : List (String × String)
  deriving DecidableEq

/-- A domain (domain_manager.py 12–33). -/
structure Domain : Type where
  id : String
  name : String
  description : String
  keywords : List String
  deriving DecidableEq

/-- `QueryGenerator.get_query_by_id` (query_generator.py 420–437) over the
flattened store of base queries and variations: first query with the id,
`None` if absent. -/
def get_query_by_id (queries : List Query) (qid : String) : Option Query :=
  queries.find? fun q => q.id == qid

/-- The variable mapping handed to the template,
`{"domain": domain.description, **query.variables}`
(main.py 353–356 and 427–430): the query's variables override `domain`. -/
def templateVars (domain : Domain) (query : Query) : List (String × String) :=
  updateAll [("domain", domain.description)] query.vars

/-! ## Model clients (model_api_integration.py, main.py 227–270) -/

/-- A model configuration entry of `self.model_configs` (name and provider
hint; the per-model generation parameters are forwarded opaquely to the
backend call and are absorbed into the `Env.api` oracle). -/
structure ModelConfig : Type where
  name : String
  provider : String
  deriving DecidableEq

/-- The two providers `ModelAPIFactory` can build
(model_api_integration.py 205–229). -/
inductive Provider : Type where
  | anthropic
  | openai
  deriving DecidableEq

/-- The external world of one pipeline run: which API keys the environment
holds, the outcome of each backend HTTP call (keyed by model id and
prompt; `.error` is a raised exception), the `random.choice` tape for the
simulation keywords (keyed by combination id and idea index), and the
clock values. -/
structure Env : Type where
  anthropicKey : Bool
  openaiKey : Bool
  api : String → String → Except String String
  pick : String → ℕ → ℕ
  now : ℚ
  dur : ℚ

/-- Provider inference (main.py 250–259): explicit `provider` field, else
`claude`/`gpt` substring of the lowered model name, else undetermined. -/
def inferProvider (cfg : ModelConfig) : String :=
  if cfg.provider ≠ "" then cfg.provider
  else if decide ("claude".data <:+: cfg.name.toLower.data) then "anthropic"
  else if decide ("gpt".data <:+: cfg.name.toLower.data) then "openai"
  else ""

/-- `ModelAPIFactory.create_client` plus client construction
(model_api_integration.py 205–229, 59–75, 131–147): unsupported provider
raises `ValueError`, a missing API key raises `APIIntegrationError`; both
are caught by the caller, so construction yields an optional client. -/
def factoryCreate (env : Env) (provider : String) : Option Provider :=
  if provider.toLower = "anthropic" then
    if env.anthropicKey then some Provider.anthropic else none
  else if provider.toLower = "openai" then
    if env.openaiKey then some Provider.openai else none
  else none

/-- `_get_or_create_model_client` (main.py 227–270): `None` when the model
has no configuration, the provider cannot be determined, or client
construction raises; caching a successfully created client does not change
the returned value, so the function is pure in the run's environment. -/
def getOrCreateModelClient (env : Env) (configs : List (String × ModelConfig))
    (model_id : String) : Option Provider :=
  match getVal configs model_id with
  | none => none
  | some cfg =>
    let provider := inferProvider cfg
    if provider = "" then none else factoryCreate env provider

/-! ## Execution engine (main.py 272–474) -/

/-- `_simulate_model_response` (main.py 408–474).  The template is rendered
first (outside any handler — a missing variable propagates), then the
placeholder response is assembled: simulation header, domain line, query
line, lead-in, three keyword ideas drawn from the random tape, and a
conclusion, joined by blank lines; the metadata carries the `simulated`
flag. -/
def simulate_model_response (env : Env) (combo : Combination)
    (template : InstructionTemplate) (query : Query) (domain : Domain) :
    Except String Result :=
  match template.format (templateVars domain query) with
  | Except.error e => Except.error e
  | Except.ok formatted =>
  let prompt := formatted ++ "\n\n" ++ query.text
  let model_name := combo.model
  let template_style := (getVal template.metadata "cognitive_style").getD "default"
  let dname := domain.name
  let ideas := (List.range 3).map fun i =>
    if domain.keywords.isEmpty then
      s!"Idea {i + 1}: A novel approach to solving this problem."
    else
      let keyword :=
        domain.keywords.getD (env.pick combo.id i % domain.keywords.length) ""
      s!"Idea {i + 1}: A solution involving {keyword} that addresses the core challenge."
  let response_parts :=
    [s!"This is a simulated response from {model_name} using the {template_style} approach.",
     "Domain: " ++ dname,
     "The query was: " ++ query.text,
     "Here are some ideas that address this challenge:"]
    ++ ideas
    ++ [s!"These ideas represent a {template_style} approach to the problem within the {dname} domain."]
  let response_text := joinSep "\n\n" response_parts
  Except.ok { combination_id := combo.id, prompt := prompt
              response := response_text
              metadata := RMeta.simulated model_name template_style env.now }

/-- `_generate_model_response` (main.py 334–406).  The template is rendered
first, outside the `try` block — a missing variable propagates.  Only the
`client.generate` call is guarded: an exception there is recorded as
`"Error generating response: ..."` text; a missing client falls back to the
simulated response. -/
def generate_model_response (env : Env) (configs : List (String × ModelConfig))
    (combo : Combination) (template : InstructionTemplate) (query : Query)
    (domain : Domain) : Except String Result :=
  match template.format (templateVars domain query) with
  | Except.error e => Except.error e
  | Except.ok formatted =>
  let prompt := formatted ++ "\n\n" ++ query.text
  let model_id := combo.model
  let template_style := (getVal template.metadata "cognitive_style").getD "default"
  match getOrCreateModelClient env configs model_id with
  | none => simulate_model_response env combo template query domain
  | some _ =>
    let response_text :=
      match env.api model_id prompt with
      | .ok t => t
      | .error msg => s!"Error generating response: {msg}"
    Except.ok { combination_id := combo.id, prompt := prompt
                response := response_text
                metadata := RMeta.real model_id template_style env.now env.dur }

/-- The application state read and written by `execute_combinations`. -/
structure AppState : Type where
  model_configs : List (String × ModelConfig)
  templates : List (String × InstructionTemplate)
  queries : List Query
  domains : List (String × Domain)
  combinations : List Combination
  results : List (String × Result)
  deriving DecidableEq

/-- One iteration of the execution loop (main.py 306–326): resolve the
template (`KeyError` if absent, main.py 310 via instruction_templates.py
96–111), the query (`None` leads to an `AttributeError` when its fields
are read), and the domain (`KeyError` if absent), then dispatch to the
real-API path when `use_real_models and self.model_configs` is truthy,
else to the simulation. -/
def execStep (env : Env) (st : AppState) (use_real_models : Bool)
    (combo : Combination) : Except String Result :=
  match getVal st.templates combo.template with
  | none =>
    let tid := combo.template
    Except.error s!"No template with ID {tid} exists"
  | some template =>
  match get_query_by_id st.queries combo.query with
  | none => Except.error "AttributeError: NoneType has no attribute vars"
  | some query =>
  match getVal st.domains combo.domain with
  | none =>
    let did := combo.domain
    Except.error s!"No domain with ID {did} exists"
  | some domain =>
  if use_real_models && !st.model_configs.isEmpty then
    generate_model_response env st.model_configs combo template query domain
  else
    simulate_model_response env combo template query domain

/-- The `for` loop of `execute_combinations` (main.py 304–330): each
result is stored under its combination id both in the local `results` dict
and in `self.results`; an exception escaping one iteration aborts the
loop. -/
def execLoop (env : Env) (st : AppState) (use_real_models : Bool) :
    List Combination → List (String × Result) → List (String × Result) →
    Except String (List (String × Result) × List (String × Result))
  | [], acc, stored => Except.ok (acc, stored)
  | combo :: rest, acc, stored =>
    match execStep env st use_real_models combo with
    | Except.error e => Except.error e
    | Except.ok result =>
      execLoop env st use_real_models rest
        (setVal acc combo.id result) (setVal stored combo.id result)

/-- The list of combinations actually executed (main.py 290–294):
`combinations or self.combinations` (an empty argument list is falsy and
falls back to the stored working set), then head truncation when
`max_to_execute` is truthy — i.e. neither `None` nor `0` — and smaller
than the list. -/
def effectiveCombos (st : AppState) (combinations : Option (List Combination))
    (max_to_execute : Option ℕ) : List Combination :=
  let combos := match combinations with
    | none => st.combinations
    | some l => if l.isEmpty then st.combinations else l
  match max_to_execute with
  | none => combos
  | some k => if k ≠ 0 ∧ k < combos.length then combos.take k else combos

/-- `execute_combinations` (main.py 272–332): dry runs return an empty
dict and leave the state untouched; otherwise the loop runs over the
effective combination list, returning the run's results dict and the state
with `self.results` upserted. -/
def execute_combinations (env : Env) (st : AppState)
    (combinations : Option (List Combination)) (max_to_execute : Option ℕ)
    (dry_run : Bool) (use_real_models : Bool) :
    Except String (List (String × Result) × AppState) :=
  let combos := effectiveCombos st combinations max_to_execute
  if dry_run then .ok ([], st)
  else
    match execLoop env st use_real_models combos [] st.results with
    | .error e => .error e
    | .ok (results, stored) => .ok (results, { st with results := stored })

/-- A combination is resolvable in a state when its template, query and
domain ids resolve and the template renders against the query's
variables. -/
def resolvable (st : AppState) (combo : Combination) : Prop :=
  ∃ t q d, getVal st.templates combo.template = some t
    ∧ get_query_by_id st.queries combo.query = some q
    ∧ getVal st.domains combo.domain = some d
    ∧ ∃ s, t.format (templateVars d q) = Except.ok s

/-! ## Scoring and ranking (main.py 519–549) -/

/-- The collection pass of `get_top_results` (main.py 538–543): walk the
evaluations in insertion order, keeping `(result, score)` for each
combination whose evaluation contains the criterion and whose id has a
stored result. -/
def scoredResults (evaluations : List (String × List (String × ℚ)))
    (results : List (String × Result)) (criterion : String) :
    List (Result × ℚ) :=
  evaluations.filterMap fun ce =>
    match getVal ce.2 criterion, getVal results ce.1 with
    | some score, some r => some (r, score)
    | _, _ => none

/-- `scored_results.sort(key=lambda x: x[1], reverse=True)` (main.py 546):
Python's sort is stable and `reverse=True` preserves stability, so it is a
stable merge sort under the relation "score at least as large". -/
def sortByScoreDesc (l : List (Result × ℚ)) : List (Result × ℚ) :=
  l.mergeSort fun a b => decide (b.2 ≤ a.2)

/-- `get_top_results` (main.py 519–549). -/
def get_top_results (evaluations : List (String × List (String × ℚ)))
    (results : List (String × Result)) (criterion : String) (n : ℕ) :
    List (Result × ℚ) :=
  if evaluations.isEmpty || results.isEmpty then []
  else (sortByScoreDesc (scoredResults evaluations results criterion)).take n

/-! ### Concrete fixtures used by witnesses and counterexamples -/

/-- A result with an empty response text. -/
def rZero : Result :=
  { combination_id := "c0", prompt := "", response := ""
    metadata := RMeta.simulated "m" "s" 0 }

/-- A result with a non-empty response text. -/
def rOne : Result :=
  { combination_id := "c1", prompt := "", response := "hello world line"
    metadata := RMeta.simulated "m" "s" 0 }

/-- A two-element top-results list. -/
def topW : List (Result × ℚ) := [(rZero, 0), (rOne, 1)]

/-- A three-element top-results list. -/
def topThree : List (Result × ℚ) := [(rZero, 0), (rZero, 0), (rZero, 0)]

/-- A previously stored idea under the key `synthesized_idea_1`. -/
def ideaOld : SynthIdea :=
  { id := "synthesized_idea_1", title := "old", description := ""
    source_combinations := [], text := ""
    metadata := SMeta.cluster "cluster_based" 1 1 0 }

/-- A stored idea collection holding `ideaOld`. -/
def storedOld : List (String × SynthIdea) := [("synthesized_idea_1", ideaOld)]

/-- A caller-supplied parameters dictionary holding only a model name. -/
def pModelOnly : List (String × J) := [("model", J.str "claude-3-sonnet")]

/-- A template whose placeholders are all satisfiable (`{domain}` only). -/
def tmplOk : InstructionTemplate :=
  { id := "ins_analytical", name := "Analytical Framework"
    template := [Seg.lit "You are an expert analyst specializing in ",
                 Seg.var "domain",
                 Seg.lit ". Approach the question carefully."]
    metadata := [("cognitive_style", "analytical"),
                 ("strength", "structured reasoning")] }

/-- A template additionally requiring `{extra}`, which no query supplies. -/
def tmplMissing : InstructionTemplate :=
  { id := "ins_extra", name := "Extra"
    template := [Seg.lit "You are an expert in ", Seg.var "domain",
                 Seg.lit ". ", Seg.var "extra"]
    metadata := [] }

/-- A base query with no extra variables. -/
def qOne : Query := { id := "q1", text := "How might we improve X?", vars := [] }

/-- A sample domain. -/
def dSample : Domain :=
  { id := "d1", name := "sample domain"
    description := "sample domain description", keywords := ["k1", "k2"] }

/-- A combination over the satisfiable template. -/
def comboOk : Combination := mkCombination "model_1" "ins_analytical" "q1" "d1"

/-- A combination over the template requiring `{extra}`. -/
def comboBad : Combination := mkCombination "model_1" "ins_extra" "q1" "d1"

/-- A state with no model configuration and the satisfiable template. -/
def stSim : AppState :=
  { model_configs := [], templates := [("ins_analytical", tmplOk)]
    queries := [qOne], domains := [("d1", dSample)]
    combinations := [], results := [] }

/-- A state with no model configuration and the `{extra}` template. -/
def stBad : AppState :=
  { model_configs := [], templates := [("ins_extra", tmplMissing)]
    queries := [qOne], domains := [("d1", dSample)]
    combinations := [], results := [] }

/-- A previously stored result for `comboOk`. -/
def rOld : Result :=
  { combination_id := comboOk.id, prompt := "p", response := "old"
    metadata := RMeta.real "model_1" "analytical" 0 0 }

/-- `stSim` with a result already stored under `comboOk`'s id. -/
def stPre : AppState := { stSim with results := [(comboOk.id, rOld)] }

/-- A concrete environment: no API keys, successful empty API responses,
constant random tape and clock. -/
def envC : Env :=
  { anthropicKey := false, openaiKey := false
    api := fun _ _ => Except.ok ""
    pick := fun _ _ => 0, now := 0, dur := 0 }

/-- Concrete evaluations for the ranking witness: three combinations, two
sharing the same overall score (in insertion order), one missing the
criterion. -/
def evalsW : List (String × List (String × ℚ)) :=
  [("c1", [("overall", 1/2)]),
   ("c2", [("overall", 3/4)]),
   ("c3", [("novelty", 1)]),
   ("c4", [("overall", 3/4)])]

/-- Concrete results dict matching `evalsW`. -/
def resultsW : List (String × Result) :=
  [("c1", rZero), ("c2", rOne), ("c3", rZero), ("c4", rOld)]

end ISEE

namespace ISEE

/-! ### Dictionary lemmas -/

theorem getVal_setVal_self {α : Type} :
    ∀ (d : List (String × α)) (k : String) (v : α),
      getVal (setVal d k v) k = some v := by
  intro d
  induction d with
  | nil => intro k v; simp [setVal, getVal]
  | cons kv rest ih =>
    intro k v
    obtain ⟨k₀, v₀⟩ := kv
    by_cases h : k = k₀
    · simp [setVal, h, getVal]
    · simp [setVal, h, getVal, ih]

theorem getVal_setVal_other {α : Type} :
    ∀ (d : List (String × α)) (k k' : String) (v : α), k' ≠ k →
      getVal (setVal d k v) k' = getVal d k' := by
  intro d
  induction d with
  | nil => intro k k' v h; simp [setVal, getVal, h]
  | cons kv rest ih =>
    intro k k' v h
    obtain ⟨k₀, v₀⟩ := kv
    by_cases hk : k = k₀
    · subst hk
      simp [setVal, getVal, h]
    · simp [setVal, hk, getVal, ih _ _ _ h]

theorem keysOf_nil {α : Type} : keysOf ([] : List (String × α)) = [] := rfl

theorem keysOf_cons {α : Type} (kv : String × α) (rest : List (String × α)) :
    keysOf (kv :: rest) = kv.1 :: keysOf rest := rfl

theorem keysOf_setVal_mem {α : Type} :
    ∀ (d : List (String × α)) (k : String) (v : α), k ∈ keysOf d →
      keysOf (setVal d k v) = keysOf d := by
  intro d
  induction d with
  | nil => intro k v h; simp [keysOf_nil] at h
  | cons kv rest ih =>
    intro k v h
    obtain ⟨k₀, v₀⟩ := kv
    by_cases hk : k = k₀
    · simp [setVal, hk, keysOf_cons]
    · simp only [keysOf_cons, List.mem_cons] at h
      have h' : k ∈ keysOf rest := h.resolve_left hk
      simp [setVal, hk, keysOf_cons, ih _ v h']

theorem keysOf_setVal_notmem {α : Type} :
    ∀ (d : List (String × α)) (k : String) (v : α), k ∉ keysOf d →
      keysOf (setVal d k v) = keysOf d ++ [k] := by
  intro d
  induction d with
  | nil => intro k v _; simp [setVal, keysOf_cons, keysOf_nil]
  | cons kv rest ih =>
    intro k v h
    obtain ⟨k₀, v₀⟩ := kv
    simp only [keysOf_cons, List.mem_cons, not_or] at h
    simp [setVal, h.1, keysOf_cons, ih _ v h.2]

theorem length_setVal_mem {α : Type} :
    ∀ (d : List (String × α)) (k : String) (v : α), k ∈ keysOf d →
      (setVal d k v).length = d.length := by
  intro d k v h
  have := congrArg List.length (keysOf_setVal_mem d k v h)
  simpa [keysOf] using this

theorem length_setVal_notmem {α : Type} :
    ∀ (d : List (String × α)) (k : String) (v : α), k ∉ keysOf d →
      (setVal d k v).length = d.length + 1 := by
  intro d k v h
  have := congrArg List.length (keysOf_setVal_notmem d k v h)
  simpa [keysOf] using this

theorem getVal_updateAll_notmem {α : Type} :
    ∀ (new d : List (String × α)) (k : String), k ∉ keysOf new →
      getVal (updateAll d new) k = getVal d k := by
  intro new
  induction new with
  | nil => intro d k _; rfl
  | cons kv rest ih =>
    intro d k hk
    obtain ⟨k₀, v₀⟩ := kv
    simp only [keysOf_cons, List.mem_cons, not_or] at hk
    show getVal (updateAll (setVal d k₀ v₀) rest) k = getVal d k
    rw [ih _ k hk.2, getVal_setVal_other d k₀ k v₀ hk.1]

theorem getVal_updateAll_mem {α : Type} :
    ∀ (new d : List (String × α)) (k : String), (keysOf new).Nodup →
      k ∈ keysOf new → getVal (updateAll d new) k = getVal new k := by
  intro new
  induction new with
  | nil => intro d k _ h; simp [keysOf_nil] at h
  | cons kv rest ih =>
    intro d k hn hk
    obtain ⟨k₀, v₀⟩ := kv
    simp only [keysOf_cons, List.nodup_cons] at hn
    by_cases he : k = k₀
    · subst he
      show getVal (updateAll (setVal d k v₀) rest) k = getVal ((k, v₀) :: rest) k
      rw [getVal_updateAll_notmem rest _ k hn.1, getVal_setVal_self]
      simp [getVal]
    · simp only [keysOf_cons, List.mem_cons] at hk
      have hk' : k ∈ keysOf rest := hk.resolve_left he
      show getVal (updateAll (setVal d k₀ v₀) rest) k = getVal ((k₀, v₀) :: rest) k
      rw [ih _ k hn.2 hk']
      simp [getVal, he]

theorem length_updateAll {α : Type} :
    ∀ (new d : List (String × α)), (keysOf new).Nodup →
      (updateAll d new).length
        = d.length + (new.filter fun kv => decide (kv.1 ∉ keysOf d)).length := by
  intro new
  induction new with
  | nil => intro d _; simp [updateAll]
  | cons kv rest ih =>
    intro d hn
    obtain ⟨k₀, v₀⟩ := kv
    simp only [keysOf_cons, List.nodup_cons] at hn
    have hrest : ∀ kv' ∈ rest, (decide (kv'.1 ∉ keysOf (setVal d k₀ v₀)) : Bool)
        = decide (kv'.1 ∉ keysOf d) := by
      intro kv' hmem
      have hne : kv'.1 ≠ k₀ := by
        intro he
        exact hn.1 (he ▸ List.mem_map_of_mem Prod.fst hmem)
      by_cases hk : k₀ ∈ keysOf d
      · rw [keysOf_setVal_mem d k₀ v₀ hk]
      · rw [keysOf_setVal_notmem d k₀ v₀ hk]
        simp [hne]
    show (updateAll (setVal d k₀ v₀) rest).length = _
    rw [ih (setVal d k₀ v₀) hn.2, List.filter_congr hrest]
    by_cases hk : k₀ ∈ keysOf d
    · rw [length_setVal_mem d k₀ v₀ hk]
      simp [List.filter, hk]
    · rw [length_setVal_notmem d k₀ v₀ hk]
      simp [List.filter, hk]
      omega

theorem isEmpty_false_of_length {α : Type} {l : List α} {k : ℕ}
    (h : l.length = k + 1) : l.isEmpty = false := by
  cases l with
  | nil => simp at h
  | cons a t => rfl

theorem length_bind_const {α β : Type} (l : List α) (f : α → List β) (c : ℕ)
    (h : ∀ a ∈ l, (f a).length = c) : (l.bind f).length = l.length * c := by
  induction l with
  | nil => simp
  | cons a rest ih =>
    simp only [List.cons_bind, List.length_append, List.length_cons,
      h a (List.mem_cons_self a rest), ih fun b hb => h b (List.mem_cons_of_mem a hb)]
    ring

theorem generate_combinations_length
    (models templates queries domains : List String) :
    (generate_combinations models templates queries domains).length
      = models.length * templates.length * queries.length * domains.length := by
  unfold generate_combinations
  have h1 : ∀ m ∈ models,
      (templates.bind fun t => queries.bind fun q =>
        domains.map fun d => mkCombination m t q d).length
      = templates.length * (queries.length * domains.length) := by
    intro m _
    have h2 : ∀ t ∈ templates,
        (queries.bind fun q => domains.map fun d =>
          mkCombination m t q d).length
        = queries.length * domains.length := by
      intro t _
      have h3 : ∀ q ∈ queries,
          (domains.map fun d => mkCombination m t q d).length
          = domains.length := by
        intro q _
        exact List.length_map _ _
      exact length_bind_const _ _ _ h3
    exact length_bind_const _ _ _ h2
  rw [length_bind_const _ _ _ h1]
  ring

theorem append_underscore_inj :
    ∀ {u₁ u₂ v₁ v₂ : List Char}, '_' ∉ u₁ → '_' ∉ u₂ →
      u₁ ++ '_' :: v₁ = u₂ ++ '_' :: v₂ → u₁ = u₂ ∧ v₁ = v₂ := by
  intro u₁
  induction u₁ with
  | nil =>
    intro u₂ v₁ v₂ _ h₂ h
    cases u₂ with
    | nil => simpa using h
    | cons c u₂' =>
      exfalso
      simp only [List.nil_append, List.cons_append, List.cons.injEq] at h
      exact h₂ (h.1 ▸ List.mem_cons_self c u₂')
  | cons c u₁' ih =>
    intro u₂ v₁ v₂ h₁ h₂ h
    cases u₂ with
    | nil =>
      exfalso
      simp only [List.cons_append, List.nil_append, List.cons.injEq] at h
      exact h₁ (h.1 ▸ List.mem_cons_self c u₁')
    | cons c' u₂' =>
      simp only [List.cons_append, List.cons.injEq] at h
      have tails := ih (fun hm => h₁ (List.mem_cons_of_mem c hm))
        (fun hm => h₂ (List.mem_cons_of_mem c' hm)) h.2
      exact ⟨by rw [h.1, tails.1], tails.2⟩

theorem combinationId_inj {m₁ t₁ q₁ d₁ m₂ t₂ q₂ d₂ : String}
    (hm₁ : '_' ∉ m₁.data) (hm₂ : '_' ∉ m₂.data)
    (ht₁ : '_' ∉ t₁.data) (ht₂ : '_' ∉ t₂.data)
    (hq₁ : '_' ∉ q₁.data) (hq₂ : '_' ∉ q₂.data)
    (h : combinationId m₁ t₁ q₁ d₁ = combinationId m₂ t₂ q₂ d₂) :
    m₁ = m₂ ∧ t₁ = t₂ ∧ q₁ = q₂ ∧ d₁ = d₂ := by
  have hdata : m₁.data ++ '_' :: (t₁.data ++ '_' :: (q₁.data ++ '_' :: d₁.data))
      = m₂.data ++ '_' :: (t₂.data ++ '_' :: (q₂.data ++ '_' :: d₂.data)) := by
    have h' := congrArg String.data h
    simpa [combinationId, String.data_append, List.append_assoc] using h'
  obtain ⟨em, h₂⟩ := append_underscore_inj hm₁ hm₂ hdata
  obtain ⟨et, h₃⟩ := append_underscore_inj ht₁ ht₂ h₂
  obtain ⟨eq', ed⟩ := append_underscore_inj hq₁ hq₂ h₃
  exact ⟨String.ext em, String.ext et, String.ext eq', String.ext ed⟩

theorem generate_combinations_eq_map_product
    (models templates queries domains : List String) :
    generate_combinations models templates queries domains
      = (models ×ˢ (templates ×ˢ (queries ×ˢ domains))).map
          fun p => mkCombination p.1 p.2.1 p.2.2.1 p.2.2.2 := by
  show generate_combinations models templates queries domains
      = (List.product models (List.product templates (List.product queries domains))).map
          fun p => mkCombination p.1 p.2.1 p.2.2.1 p.2.2.2
  simp only [generate_combinations, List.product, List.map_flatMap, List.map_map]
  rfl

/-- C2 (amended): `generate_combinations` always produces exactly
`b*t*q*d` combinations; and whenever the selected component id lists are
duplicate-free and the model, template and query ids contain no underscore,
the produced combination identifiers are pairwise distinct. -/
theorem generate_combinations_count_unique
    (models templates queries domains : List String)
    (hm : models.Nodup) (ht : templates.Nodup) (hq : queries.Nodup)
    (hd : domains.Nodup)
    (hmu : ∀ s ∈ models, '_' ∉ s.data)
    (htu : ∀ s ∈ templates, '_' ∉ s.data)
    (hqu : ∀ s ∈ queries, '_' ∉ s.data) :
    (generate_combinations models templates queries domains).length
      = models.length * templates.length * queries.length * domains.length
    ∧ ((generate_combinations models templates queries domains).map
        Combination.id).Nodup := by
  refine ⟨generate_combinations_length models templates queries domains, ?_⟩
  rw [generate_combinations_eq_map_product, List.map_map]
  have hnodup : (models ×ˢ (templates ×ˢ (queries ×ˢ domains))).Nodup :=
    hm.product (ht.product (hq.product hd))
  refine hnodup.map_on ?_
  rintro ⟨m₁, t₁, q₁, d₁⟩ hp₁ ⟨m₂, t₂, q₂, d₂⟩ hp₂ hid
  simp only [List.mem_product] at hp₁ hp₂
  have h := combinationId_inj
    (hmu m₁ hp₁.1) (hmu m₂ hp₂.1)
    (htu t₁ hp₁.2.1) (htu t₂ hp₂.2.1)
    (hqu q₁ hp₁.2.2.1) (hqu q₂ hp₂.2.2.1) hid
  obtain ⟨e₁, e₂, e₃, e₄⟩ := h
  have e₄' : d₁ = d₂ := e₄
  rw [e₁, e₂, e₃, e₄']

/-- C2 counterexample: with pairwise-distinct component ids that contain
underscores, two distinct tuples can share one combination identifier, so
the produced identifiers are not unique (here `m_a ⧺ _ ⧺ b` and
`m ⧺ _ ⧺ a_b` both yield `m_a_b_q_d`). -/
theorem generate_combinations_duplicate_id :
    ¬ (((generate_combinations ["m_a", "m"] ["b", "a_b"] ["q"] ["d"]).map
        Combination.id).Nodup) := by decide

/-- Concrete instantiation of `generate_combinations_count_unique`. -/
theorem generate_combinations_count_unique_witness :
    (generate_combinations ["m1", "m2"] ["t1"] ["q1", "q2"] ["d1"]).length
      = 2 * 1 * 2 * 1
    ∧ ((generate_combinations ["m1", "m2"] ["t1"] ["q1", "q2"] ["d1"]).map
        Combination.id).Nodup :=
  generate_combinations_count_unique ["m1", "m2"] ["t1"] ["q1", "q2"] ["d1"]
    (by decide) (by decide) (by decide) (by decide)
    (by decide) (by decide) (by decide)

/-- C8: `save_state` followed by `load_state` on the same document
reproduces the saved combinations/results/evaluations/ideas structure
exactly, for every application state. -/
theorem save_load_roundtrip (s : PersistState) :
    load_state (save_state s) = s := by
  cases s
  rfl

theorem synthesizeClusters_length (method : String) :
    ∀ (i : ℕ) (cs : List (List (Result × ℚ))),
      (synthesizeClusters method i cs).length
        = (cs.filter fun c => !c.isEmpty).length := by
  intro i cs
  induction cs generalizing i with
  | nil => rfl
  | cons c rest ih =>
    by_cases hc : c.isEmpty
    · simp [synthesizeClusters, hc, ih]
    · simp [synthesizeClusters, hc, ih]

/-- C3: for a non-empty `top_results` list, `cluster_based` synthesis
splits the list into three contiguous index groups that concatenate back to
the whole list, produces exactly one idea per non-empty group (empty groups
are skipped), and in particular yields exactly 3 ideas on 9 results and at
most 2 ideas on 2 results. -/
theorem cluster_based_partition_counts
    (top : List (Result × ℚ)) (stored : List (String × SynthIdea))
    (h : top ≠ []) :
    top.take (top.length / 3)
      ++ (top.drop (top.length / 3)).take (2 * top.length / 3 - top.length / 3)
      ++ top.drop (2 * top.length / 3) = top
    ∧ (synthesize_ideas top "cluster_based" stored).1.length
        = ((clustersOf top).filter fun c => !c.isEmpty).length
    ∧ (top.length = 9 → (synthesize_ideas top "cluster_based" stored).1.length = 3)
    ∧ (top.length = 2 → (synthesize_ideas top "cluster_based" stored).1.length ≤ 2) := by
  have hne : top.isEmpty = false := by
    cases top with
    | nil => exact absurd rfl h
    | cons a t => rfl
  have hsyn : (synthesize_ideas top "cluster_based" stored).1
      = synthesizeClusters "cluster_based" 1 (clustersOf top) := by
    simp [synthesize_ideas, hne]
  have hle : top.length / 3 ≤ 2 * top.length / 3 :=
    Nat.div_le_div_right (by omega)
  refine ⟨?_, ?_, ?_, ?_⟩
  · have hdd : (top.drop (top.length / 3)).drop (2 * top.length / 3 - top.length / 3)
        = top.drop (2 * top.length / 3) := by
      rw [List.drop_drop]
      congr 1
      omega
    calc top.take (top.length / 3)
          ++ (top.drop (top.length / 3)).take (2 * top.length / 3 - top.length / 3)
          ++ top.drop (2 * top.length / 3)
        = top.take (top.length / 3)
          ++ ((top.drop (top.length / 3)).take (2 * top.length / 3 - top.length / 3)
              ++ (top.drop (top.length / 3)).drop (2 * top.length / 3 - top.length / 3)) := by
          rw [hdd, List.append_assoc]
      _ = top.take (top.length / 3) ++ top.drop (top.length / 3) := by
          rw [List.take_append_drop]
      _ = top := List.take_append_drop _ _
  · rw [hsyn, synthesizeClusters_length]
  · intro h9
    rw [hsyn, synthesizeClusters_length]
    have l1 : (top.take (top.length / 3)).length = 2 + 1 := by
      simp [List.length_take, h9]
    have l2 : ((top.drop (top.length / 3)).take
        (2 * top.length / 3 - top.length / 3)).length = 2 + 1 := by
      simp [List.length_take, List.length_drop, h9]
    have l3 : (top.drop (2 * top.length / 3)).length = 2 + 1 := by
      simp [List.length_drop, h9]
    simp [clustersOf, List.filter, isEmpty_false_of_length l1,
      isEmpty_false_of_length l2, isEmpty_false_of_length l3]
  · intro h2
    rw [hsyn, synthesizeClusters_length]
    have e1 : (top.take (top.length / 3)).isEmpty = true := by
      rw [h2]
      rfl
    have hstep : ((clustersOf top).filter fun c => !c.isEmpty)
        = ([(top.drop (top.length / 3)).take (2 * top.length / 3 - top.length / 3),
            top.drop (2 * top.length / 3)].filter fun c => !c.isEmpty) := by
      simp [clustersOf, List.filter, e1]
    rw [hstep]
    exact le_trans (List.length_filter_le _ _) (by simp)

/-- Concrete instantiation of `cluster_based_partition_counts` on a
two-element top-results list. -/
theorem cluster_based_partition_counts_witness :
    topW.take (topW.length / 3)
      ++ (topW.drop (topW.length / 3)).take (2 * topW.length / 3 - topW.length / 3)
      ++ topW.drop (2 * topW.length / 3) = topW
    ∧ (synthesize_ideas topW "cluster_based" []).1.length
        = ((clustersOf topW).filter fun c => !c.isEmpty).length
    ∧ (topW.length = 9 → (synthesize_ideas topW "cluster_based" []).1.length = 3)
    ∧ (topW.length = 2 → (synthesize_ideas topW "cluster_based" []).1.length ≤ 2) :=
  cluster_based_partition_counts topW [] (by decide)

theorem synthesizeClusters_keys_nodup (method : String)
    (c₁ c₂ c₃ : List (Result × ℚ)) :
    (keysOf (synthesizeClusters method 1 [c₁, c₂, c₃])).Nodup := by
  by_cases e₁ : c₁.isEmpty <;> by_cases e₂ : c₂.isEmpty <;> by_cases e₃ : c₃.isEmpty <;>
    simp [synthesizeClusters, e₁, e₂, e₃, keysOf_cons, keysOf_nil] <;> decide

theorem synthesized_keys_nodup
    (top : List (Result × ℚ)) (method : String)
    (stored : List (String × SynthIdea)) :
    (keysOf (synthesize_ideas top method stored).1).Nodup := by
  by_cases h0 : top.isEmpty
  · simp [synthesize_ideas, h0, keysOf_nil]
  · by_cases h1 : method = "cluster_based"
    · have hrw : (synthesize_ideas top method stored).1
          = synthesizeClusters method 1 (clustersOf top) := by
        simp [synthesize_ideas, h0, h1]
      rw [hrw]
      exact synthesizeClusters_keys_nodup method _ _ _
    · by_cases h2 : method = "cross_pollination"
      · simp [synthesize_ideas, h0, h1, h2, keysOf_cons, keysOf_nil]
      · simp [synthesize_ideas, h0, h1, h2, keysOf_nil]

/-- C4 (amended): each invocation of `synthesize_ideas` merges its output
into the stored idea collection with dict-update semantics and no
content deduplication: keys absent from the fresh output keep their stored
value, keys present in it take the fresh value (a previously stored idea
under the same identifier is overwritten, not kept), the store grows by
exactly one entry per fresh identifier not already present, and
`cluster_based` reuses the fixed identifier `synthesized_idea_1` whenever
at least three results are supplied — so re-running synthesis overwrites
those entries instead of adding ideas under new identifiers. -/
theorem synthesize_ideas_update_semantics
    (top : List (Result × ℚ)) (method : String)
    (stored : List (String × SynthIdea)) :
    (∀ k, k ∉ keysOf (synthesize_ideas top method stored).1 →
      getVal (synthesize_ideas top method stored).2 k = getVal stored k)
    ∧ (∀ k, k ∈ keysOf (synthesize_ideas top method stored).1 →
      getVal (synthesize_ideas top method stored).2 k
        = getVal (synthesize_ideas top method stored).1 k)
    ∧ (synthesize_ideas top method stored).2.length
        = stored.length + ((synthesize_ideas top method stored).1.filter
            fun kv => decide (kv.1 ∉ keysOf stored)).length
    ∧ (method = "cluster_based" → 3 ≤ top.length →
      ideaId 1 ∈ keysOf (synthesize_ideas top method stored).1) := by
  by_cases h0 : top.isEmpty
  · have htop : top = [] := List.isEmpty_iff.mp h0
    subst htop
    refine ⟨?_, ?_, ?_, ?_⟩
    · intro k _
      simp [synthesize_ideas]
    · intro k hk
      simp [synthesize_ideas, keysOf_nil] at hk
    · simp [synthesize_ideas]
    · intro _ h3
      simp at h3
  · have hfalse : top.isEmpty = false := by
      simpa using h0
    have h2 : (synthesize_ideas top method stored).2
        = updateAll stored (synthesize_ideas top method stored).1 := by
      simp [synthesize_ideas, hfalse]
    have hnodup := synthesized_keys_nodup top method stored
    refine ⟨?_, ?_, ?_, ?_⟩
    · intro k hk
      rw [h2]
      exact getVal_updateAll_notmem _ _ _ hk
    · intro k hk
      rw [h2]
      exact getVal_updateAll_mem _ _ _ hnodup hk
    · rw [h2]
      exact length_updateAll _ _ hnodup
    · intro hm h3
      subst hm
      have hrw : (synthesize_ideas top "cluster_based" stored).1
          = synthesizeClusters "cluster_based" 1 (clustersOf top) := by
        simp [synthesize_ideas, hfalse]
      rw [hrw]
      have hlen : (top.take (top.length / 3)).length = (top.length / 3 - 1) + 1 := by
        rw [List.length_take, Nat.min_eq_left (Nat.div_le_self _ _)]
        omega
      have hc1 : (top.take (top.length / 3)).isEmpty = false :=
        isEmpty_false_of_length hlen
      simp [clustersOf, synthesizeClusters, hc1, keysOf_cons]

/-- Concrete instantiation of `synthesize_ideas_update_semantics`: a key
outside the synthesized output is untouched, and a three-result
`cluster_based` run emits the fixed identifier `synthesized_idea_1`. -/
theorem synthesize_ideas_update_semantics_witness :
    getVal (synthesize_ideas topThree "cluster_based" storedOld).2 "unrelated"
      = getVal storedOld "unrelated"
    ∧ ideaId 1 ∈ keysOf (synthesize_ideas topThree "cluster_based" storedOld).1 :=
  ⟨(synthesize_ideas_update_semantics topThree "cluster_based" storedOld).1
      "unrelated" (by decide),
   (synthesize_ideas_update_semantics topThree "cluster_based" storedOld).2.2.2
      rfl (by decide)⟩

/-- C4 counterexample: re-running `cluster_based` synthesis does not leave
previously stored ideas unchanged — the stored idea under
`synthesized_idea_1` is overwritten by the new run's idea (and the store
ends with 3 entries, not the 4 that pure accumulation would give). -/
theorem synthesize_ideas_overwrites :
    getVal (synthesize_ideas topThree "cluster_based" storedOld).2
        "synthesized_idea_1" ≠ some ideaOld
    ∧ (synthesize_ideas topThree "cluster_based" storedOld).2.length = 3 := by
  decide

/-- C10 (amended): for a non-None, non-empty parameters dictionary, both
clients behave identically and mutate the caller's dictionary: a missing
`max_tokens` is set to 1024, a missing `temperature` is set to 0.7, and
every other entry is left unchanged.  (A non-None empty dictionary is
falsy, so `parameters or {}` substitutes a fresh dict and the caller's
dictionary is not mutated.) -/
theorem client_default_params_mutation
    (parameters : List (String × J)) (h : parameters ≠ []) :
    anthropicCallerParamsAfter parameters = openaiCallerParamsAfter parameters
    ∧ (getVal parameters "max_tokens" = none →
      getVal (anthropicCallerParamsAfter parameters) "max_tokens"
        = some (J.num 1024))
    ∧ (getVal parameters "temperature" = none →
      getVal (anthropicCallerParamsAfter parameters) "temperature"
        = some (J.num (7/10)))
    ∧ (∀ k, k ≠ "max_tokens" → k ≠ "temperature" →
      getVal (anthropicCallerParamsAfter parameters) k
        = getVal parameters k) := by
  have hne : parameters.isEmpty = false := by
    cases parameters with
    | nil => exact absurd rfl h
    | cons a t => rfl
  refine ⟨rfl, ?_, ?_, ?_⟩
  · intro hmt
    unfold anthropicCallerParamsAfter
    simp only [hne, Bool.false_eq_true, if_false, hmt]
    cases htp : getVal (setVal parameters "max_tokens" (J.num 1024)) "temperature" with
    | none =>
      simp only [htp]
      rw [getVal_setVal_other _ _ _ _ (by decide)]
      exact getVal_setVal_self _ _ _
    | some v =>
      simp only [htp]
      exact getVal_setVal_self _ _ _
  · intro htp
    unfold anthropicCallerParamsAfter
    simp only [hne, Bool.false_eq_true, if_false]
    cases hmt : getVal parameters "max_tokens" with
    | none =>
      have h1 : getVal (setVal parameters "max_tokens" (J.num 1024)) "temperature"
          = none := by
        rw [getVal_setVal_other _ _ _ _ (by decide)]
        exact htp
      simp only [hmt, h1]
      exact getVal_setVal_self _ _ _
    | some v =>
      simp only [hmt, htp]
      exact getVal_setVal_self _ _ _
  · intro k hk1 hk2
    unfold anthropicCallerParamsAfter
    simp only [hne, Bool.false_eq_true, if_false]
    cases hmt : getVal parameters "max_tokens" with
    | none =>
      cases htp : getVal (setVal parameters "max_tokens" (J.num 1024)) "temperature" with
      | none =>
        simp only [htp]
        rw [getVal_setVal_other _ _ _ _ hk2, getVal_setVal_other _ _ _ _ hk1]
      | some v =>
        simp only [htp]
        rw [getVal_setVal_other _ _ _ _ hk1]
    | some v =>
      cases htp : getVal parameters "temperature" with
      | none =>
        simp only [htp]
        rw [getVal_setVal_other _ _ _ _ hk2]
      | some w =>
        simp only [htp]

/-- Concrete instantiation of `client_default_params_mutation` on a
dictionary holding only a model name. -/
theorem client_default_params_mutation_witness :
    anthropicCallerParamsAfter pModelOnly = openaiCallerParamsAfter pModelOnly
    ∧ getVal (anthropicCallerParamsAfter pModelOnly) "max_tokens"
        = some (J.num 1024)
    ∧ getVal (anthropicCallerParamsAfter pModelOnly) "temperature"
        = some (J.num (7/10))
    ∧ getVal (anthropicCallerParamsAfter pModelOnly) "model"
        = getVal pModelOnly "model" :=
  ⟨(client_default_params_mutation pModelOnly (List.cons_ne_nil _ _)).1,
   (client_default_params_mutation pModelOnly (List.cons_ne_nil _ _)).2.1 rfl,
   (client_default_params_mutation pModelOnly (List.cons_ne_nil _ _)).2.2.1 rfl,
   (client_default_params_mutation pModelOnly (List.cons_ne_nil _ _)).2.2.2
     "model" (by decide) (by decide)⟩

/-- C10 counterexample: a non-None but empty parameters dictionary lacks
`max_tokens` and `temperature`, yet neither client mutates it — the
defaults land in a fresh internal dict, and after the call the caller's
dictionary still has neither key. -/
theorem client_default_params_empty_not_mutated :
    anthropicCallerParamsAfter [] = []
    ∧ openaiCallerParamsAfter [] = []
    ∧ getVal (anthropicCallerParamsAfter []) "max_tokens" = none
    ∧ getVal (openaiCallerParamsAfter []) "temperature" = none :=
  ⟨rfl, rfl, rfl, rfl⟩

theorem getVal_setVal_presence {α : Type} (d : List (String × α))
    (k k' : String) (v : α) (h : ∃ w, getVal d k = some w) :
    ∃ w, getVal (setVal d k' v) k = some w := by
  by_cases he : k = k'
  · subst he
    exact ⟨v, getVal_setVal_self d k v⟩
  · rw [getVal_setVal_other d k' k v he]
    exact h

theorem nodup_keys_setVal {α : Type} (d : List (String × α)) (k : String)
    (v : α) (h : (keysOf d).Nodup) : (keysOf (setVal d k v)).Nodup := by
  by_cases hk : k ∈ keysOf d
  · rw [keysOf_setVal_mem d k v hk]
    exact h
  · rw [keysOf_setVal_notmem d k v hk]
    rw [List.nodup_append]
    refine ⟨h, List.nodup_singleton k, ?_⟩
    intro a ha hmem
    rw [List.mem_singleton] at hmem
    exact hk (hmem ▸ ha)

theorem joinSep_contains_second (sep a x y c : String) (rest : List String) :
    ∃ pre post, joinSep sep (a :: (x ++ y) :: c :: rest) = pre ++ y ++ post :=
  ⟨a ++ sep ++ x, sep ++ joinSep sep (c :: rest), by
    apply String.ext
    simp [joinSep, String.data_append, List.append_assoc]⟩

theorem simulate_response_spec (env : Env) (combo : Combination)
    (template : InstructionTemplate) (query : Query) (domain : Domain)
    (s : String)
    (hfmt : template.format (templateVars domain query) = Except.ok s) :
    ∃ r, simulate_model_response env combo template query domain = Except.ok r
      ∧ r.metadata.isSimulated = true
      ∧ ∃ pre post, r.response = pre ++ domain.name ++ post := by
  unfold simulate_model_response
  rw [hfmt]
  refine ⟨_, rfl, rfl, ?_⟩
  exact joinSep_contains_second "\n\n" _ "Domain: " domain.name _ _

theorem generate_response_ok (env : Env) (configs : List (String × ModelConfig))
    (combo : Combination) (template : InstructionTemplate) (query : Query)
    (domain : Domain) (s : String)
    (hfmt : template.format (templateVars domain query) = Except.ok s) :
    ∃ r, generate_model_response env configs combo template query domain
      = Except.ok r := by
  unfold generate_model_response
  simp only [hfmt]
  cases hc : getOrCreateModelClient env configs combo.model with
  | none =>
    obtain ⟨r, hr, _, _⟩ := simulate_response_spec env combo template query domain s hfmt
    exact ⟨r, hr⟩
  | some p =>
    exact ⟨_, rfl⟩

theorem execStep_ok (env : Env) (st : AppState) (u : Bool)
    (combo : Combination) (h : resolvable st combo) :
    ∃ r, execStep env st u combo = Except.ok r := by
  obtain ⟨t, q, d, ht, hq, hd, s, hfmt⟩ := h
  unfold execStep
  simp only [ht, hq, hd]
  by_cases hu : (u && !st.model_configs.isEmpty) = true
  · rw [if_pos hu]
    exact generate_response_ok env st.model_configs combo t q d s hfmt
  · rw [if_neg hu]
    obtain ⟨r, hr, _, _⟩ := simulate_response_spec env combo t q d s hfmt
    exact ⟨r, hr⟩

theorem execLoop_ok (env : Env) (st : AppState) (u : Bool) :
    ∀ (combos : List Combination) (acc stored : List (String × Result)),
      (∀ c ∈ combos, resolvable st c) →
      ∃ res stored',
        execLoop env st u combos acc stored = Except.ok (res, stored') := by
  intro combos
  induction combos with
  | nil =>
    intro acc stored _
    exact ⟨acc, stored, rfl⟩
  | cons c rest ih =>
    intro acc stored hres
    obtain ⟨r, hr⟩ := execStep_ok env st u c (hres c (List.mem_cons_self c rest))
    obtain ⟨res, stored', hloop⟩ := ih (setVal acc c.id r) (setVal stored c.id r)
      (fun c' hc' => hres c' (List.mem_cons_of_mem c hc'))
    refine ⟨res, stored', ?_⟩
    simp only [execLoop]
    rw [hr]
    exact hloop

theorem execLoop_presence (env : Env) (st : AppState) (u : Bool) :
    ∀ (combos : List Combination) (acc stored res stored' : List (String × Result)),
      execLoop env st u combos acc stored = Except.ok (res, stored') →
      (∀ k, (∃ v, getVal acc k = some v) → ∃ v, getVal res k = some v)
      ∧ (∀ c ∈ combos, ∃ v, getVal res c.id = some v)
      ∧ (∀ k, (∃ v, getVal stored k = some v) → ∃ v, getVal stored' k = some v)
      ∧ (∀ c ∈ combos, ∃ v, getVal stored' c.id = some v) := by
  intro combos
  induction combos with
  | nil =>
    intro acc stored res stored' h
    simp only [execLoop, Except.ok.injEq, Prod.mk.injEq] at h
    obtain ⟨h1, h2⟩ := h
    subst h1
    subst h2
    exact ⟨fun k hk => hk, by simp, fun k hk => hk, by simp⟩
  | cons c rest ih =>
    intro acc stored res stored' h
    simp only [execLoop] at h
    cases hstep : execStep env st u c with
    | error e =>
      rw [hstep] at h
      simp at h
    | ok r =>
      rw [hstep] at h
      obtain ⟨ih1, ih2, ih3, ih4⟩ := ih _ _ _ _ h
      refine ⟨?_, ?_, ?_, ?_⟩
      · intro k hk
        exact ih1 k (getVal_setVal_presence acc k c.id r hk)
      · intro c' hc'
        rcases List.mem_cons.mp hc' with he | hm
        · subst he
          exact ih1 c'.id ⟨r, getVal_setVal_self acc c'.id r⟩
        · exact ih2 c' hm
      · intro k hk
        exact ih3 k (getVal_setVal_presence stored k c.id r hk)
      · intro c' hc'
        rcases List.mem_cons.mp hc' with he | hm
        · subst he
          exact ih3 c'.id ⟨r, getVal_setVal_self stored c'.id r⟩
        · exact ih4 c' hm

theorem execLoop_upsert_char (env : Env) (st : AppState) (u : Bool)
    (base : List (String × Result)) :
    ∀ (combos : List Combination) (acc stored res stored' : List (String × Result)),
      (∀ k, getVal stored k = match getVal acc k with
        | some v => some v
        | none => getVal base k) →
      execLoop env st u combos acc stored = Except.ok (res, stored') →
      ∀ k, getVal stored' k = match getVal res k with
        | some v => some v
        | none => getVal base k := by
  intro combos
  induction combos with
  | nil =>
    intro acc stored res stored' hinv h
    simp only [execLoop, Except.ok.injEq, Prod.mk.injEq] at h
    obtain ⟨h1, h2⟩ := h
    subst h1
    subst h2
    exact hinv
  | cons c rest ih =>
    intro acc stored res stored' hinv h
    simp only [execLoop] at h
    cases hstep : execStep env st u c with
    | error e =>
      rw [hstep] at h
      simp at h
    | ok r =>
      rw [hstep] at h
      refine ih _ _ _ _ ?_ h
      intro k
      by_cases he : k = c.id
      · subst he
        rw [getVal_setVal_self, getVal_setVal_self]
      · rw [getVal_setVal_other stored c.id k r he,
          getVal_setVal_other acc c.id k r he]
        exact hinv k

theorem execLoop_keys_nodup (env : Env) (st : AppState) (u : Bool) :
    ∀ (combos : List Combination) (acc stored res stored' : List (String × Result)),
      (keysOf stored).Nodup →
      execLoop env st u combos acc stored = Except.ok (res, stored') →
      (keysOf stored').Nodup := by
  intro combos
  induction combos with
  | nil =>
    intro acc stored res stored' hn h
    simp only [execLoop, Except.ok.injEq, Prod.mk.injEq] at h
    obtain ⟨h1, h2⟩ := h
    subst h2
    exact hn
  | cons c rest ih =>
    intro acc stored res stored' hn h
    simp only [execLoop] at h
    cases hstep : execStep env st u c with
    | error e =>
      rw [hstep] at h
      simp at h
    | ok r =>
      rw [hstep] at h
      exact ih _ _ _ _ (nodup_keys_setVal stored c.id r hn) h

/-- C1 (amended): per-combination backend failures never abort the batch —
whenever every executed combination's component ids resolve and its
template renders, `execute_combinations` succeeds for every environment
(any API outcomes, any client availability) and stores a Result (real,
simulated, or error-text) for every executed combination.  A
`MissingVariable` raised while rendering the instruction template, however,
is outside the per-call handler and propagates, aborting the batch (see the
counterexample). -/
theorem execute_combinations_total_on_renderable
    (env : Env) (st : AppState) (combinations : Option (List Combination))
    (max_to_execute : Option ℕ) (use_real_models : Bool)
    (hres : ∀ c ∈ effectiveCombos st combinations max_to_execute, resolvable st c) :
    ∃ res st',
      execute_combinations env st combinations max_to_execute false use_real_models
        = Except.ok (res, st')
      ∧ ∀ c ∈ effectiveCombos st combinations max_to_execute,
          (∃ r, getVal res c.id = some r) ∧ ∃ r, getVal st'.results c.id = some r := by
  obtain ⟨res, stored', hloop⟩ :=
    execLoop_ok env st use_real_models
      (effectiveCombos st combinations max_to_execute) [] st.results hres
  have hpres := execLoop_presence env st use_real_models _ _ _ _ _ hloop
  refine ⟨res, { st with results := stored' }, ?_, ?_⟩
  · simp [execute_combinations, hloop]
  · intro c hc
    exact ⟨hpres.2.1 c hc, hpres.2.2.2 c hc⟩

/-- Concrete instantiation of `execute_combinations_total_on_renderable`. -/
theorem execute_combinations_total_on_renderable_witness :
    ∃ res st',
      execute_combinations envC stSim (some [comboOk]) none false false
        = Except.ok (res, st')
      ∧ ∀ c ∈ effectiveCombos stSim (some [comboOk]) none,
          (∃ r, getVal res c.id = some r) ∧ ∃ r, getVal st'.results c.id = some r :=
  execute_combinations_total_on_renderable envC stSim (some [comboOk]) none false
    (by
      intro c hc
      have hc' : c = comboOk := by simpa [effectiveCombos] using hc
      subst hc'
      exact ⟨tmplOk, qOne, dSample, rfl, rfl, rfl, _, rfl⟩)

/-- C1 counterexample: a `MissingVariable` raised while rendering the
instruction template (here the template requires `{extra}`, which the
query does not supply) propagates out of `execute_combinations` and aborts
the batch — no Result is stored for the combination. -/
theorem execute_combinations_missing_variable_aborts :
    execute_combinations envC stBad (some [comboBad]) none false false
      = Except.error "Missing required variable extra for template Extra" := rfl

/-- C5: executing a single combination when no backend configuration is
present (so no usable client exists) yields a simulated Result: its
metadata carries the `simulated` flag and its response text contains the
domain's name. -/
theorem execute_no_config_simulates
    (env : Env) (st : AppState) (combo : Combination) (use_real_models : Bool)
    (t : InstructionTemplate) (q : Query) (d : Domain) (s : String)
    (hcfg : st.model_configs = [])
    (ht : getVal st.templates combo.template = some t)
    (hq : get_query_by_id st.queries combo.query = some q)
    (hd : getVal st.domains combo.domain = some d)
    (hfmt : t.format (templateVars d q) = Except.ok s) :
    ∃ res st' r,
      execute_combinations env st (some [combo]) none false use_real_models
        = Except.ok (res, st')
      ∧ getVal res combo.id = some r
      ∧ r.metadata.isSimulated = true
      ∧ ∃ pre post, r.response = pre ++ d.name ++ post := by
  obtain ⟨r, hr, hmeta, hsub⟩ := simulate_response_spec env combo t q d s hfmt
  have hstep : execStep env st use_real_models combo
      = simulate_model_response env combo t q d := by
    unfold execStep
    simp [ht, hq, hd, hcfg]
  have hloop : execLoop env st use_real_models [combo] [] st.results
      = Except.ok ([(combo.id, r)], setVal st.results combo.id r) := by
    simp only [execLoop, hstep, hr]
    rfl
  refine ⟨[(combo.id, r)], { st with results := setVal st.results combo.id r },
    r, ?_, ?_, hmeta, hsub⟩
  · simp [execute_combinations, effectiveCombos, hloop]
  · simp [getVal]

/-- Concrete instantiation of `execute_no_config_simulates` on the sample
scenario: one template, one query, one domain, empty configuration. -/
theorem execute_no_config_simulates_witness :
    ∃ res st' r,
      execute_combinations envC stSim (some [comboOk]) none false false
        = Except.ok (res, st')
      ∧ getVal res comboOk.id = some r
      ∧ r.metadata.isSimulated = true
      ∧ ∃ pre post, r.response = pre ++ dSample.name ++ post :=
  execute_no_config_simulates envC stSim comboOk false tmplOk qOne dSample _
    rfl rfl rfl rfl rfl

/-- C7: on a results map with duplicate-free keys, a successful
`execute_combinations` run upserts: the new results map still has
duplicate-free keys (at most one Result per combination id, never a
duplicate entry), every key's stored value is the run's value where the
run produced one and the old value otherwise (overwrite in place), and
every executed combination's id is present in the run's results. -/
theorem execute_combinations_upsert
    (env : Env) (st : AppState) (combinations : Option (List Combination))
    (max_to_execute : Option ℕ) (use_real_models : Bool)
    (hnodup : (keysOf st.results).Nodup) :
    ∀ res st',
      execute_combinations env st combinations max_to_execute false use_real_models
        = Except.ok (res, st') →
      (keysOf st'.results).Nodup
      ∧ (∀ k, getVal st'.results k
          = match getVal res k with
            | some r => some r
            | none => getVal st.results k)
      ∧ ∀ c ∈ effectiveCombos st combinations max_to_execute,
          ∃ r, getVal res c.id = some r := by
  intro res st' hexec
  simp only [execute_combinations, Bool.false_eq_true, if_false] at hexec
  cases hloop : execLoop env st use_real_models
      (effectiveCombos st combinations max_to_execute) [] st.results with
  | error e =>
    rw [hloop] at hexec
    simp at hexec
  | ok p =>
    obtain ⟨res₀, stored₀⟩ := p
    rw [hloop] at hexec
    simp only [Except.ok.injEq, Prod.mk.injEq] at hexec
    obtain ⟨h1, h2⟩ := hexec
    subst h1
    subst h2
    refine ⟨?_, ?_, ?_⟩
    · exact execLoop_keys_nodup env st use_real_models _ _ _ _ _ hnodup hloop
    · exact execLoop_upsert_char env st use_real_models st.results _ _ _ _ _
        (fun k => rfl) hloop
    · exact fun c hc =>
        (execLoop_presence env st use_real_models _ _ _ _ _ hloop).2.1 c hc

/-- Concrete instantiation of `execute_combinations_upsert`: re-executing
`comboOk` on a state that already stores a result under its id. -/
theorem execute_combinations_upsert_witness :
    ∃ res st',
      execute_combinations envC stPre (some [comboOk]) none false false
        = Except.ok (res, st')
      ∧ (keysOf st'.results).Nodup
      ∧ ∀ c ∈ effectiveCombos stPre (some [comboOk]) none,
          ∃ r, getVal res c.id = some r := by
  refine ⟨_, _, rfl, ?_, ?_⟩
  · exact (execute_combinations_upsert envC stPre (some [comboOk]) none false
      (by decide) _ _ rfl).1
  · exact (execute_combinations_upsert envC stPre (some [comboOk]) none false
      (by decide) _ _ rfl).2.2

/-- C9: a `max_to_execute` of `0` is falsy, so the cap is not applied and
every combination of the supplied list is executed and stored; only a
strictly positive cap smaller than the list truncates, to the first
`max_to_execute` combinations. -/
theorem max_to_execute_zero_not_applied
    (env : Env) (st : AppState) (combos : List Combination) (h : combos ≠ []) :
    effectiveCombos st (some combos) (some 0) = combos
    ∧ (∀ k : ℕ, 0 < k → k < combos.length →
        effectiveCombos st (some combos) (some k) = combos.take k)
    ∧ ∀ (u : Bool) (res : List (String × Result)) (st' : AppState),
        execute_combinations env st (some combos) (some 0) false u
          = Except.ok (res, st') →
        ∀ c ∈ combos, ∃ r, getVal res c.id = some r := by
  have hne : combos.isEmpty = false := by
    cases combos with
    | nil => exact absurd rfl h
    | cons a t => rfl
  have heff0 : effectiveCombos st (some combos) (some 0) = combos := by
    simp [effectiveCombos, hne]
  refine ⟨heff0, ?_, ?_⟩
  · intro k hk0 hklen
    simp only [effectiveCombos, hne, Bool.false_eq_true, if_false]
    rw [if_pos ⟨Nat.pos_iff_ne_zero.mp hk0, hklen⟩]
  · intro u res st' hexec c hc
    simp only [execute_combinations, Bool.false_eq_true, if_false, heff0] at hexec
    cases hloop : execLoop env st u combos [] st.results with
    | error e =>
      rw [hloop] at hexec
      simp at hexec
    | ok p =>
      obtain ⟨res₀, stored₀⟩ := p
      rw [hloop] at hexec
      simp only [Except.ok.injEq, Prod.mk.injEq] at hexec
      obtain ⟨h1, _⟩ := hexec
      subst h1
      exact (execLoop_presence env st u _ _ _ _ _ hloop).2.1 c hc

/-- Concrete instantiation of `max_to_execute_zero_not_applied` on a
two-element combination list. -/
theorem max_to_execute_zero_not_applied_witness :
    effectiveCombos stSim (some [comboOk, comboBad]) (some 0) = [comboOk, comboBad]
    ∧ effectiveCombos stSim (some [comboOk, comboBad]) (some 1)
        = [comboOk, comboBad].take 1 :=
  ⟨(max_to_execute_zero_not_applied envC stSim [comboOk, comboBad]
      (by decide)).1,
   (max_to_execute_zero_not_applied envC stSim [comboOk, comboBad]
      (by decide)).2.1 1 (by decide) (by decide)⟩

theorem scoreLe_trans : ∀ a b c : Result × ℚ,
    (fun a b : Result × ℚ => decide (b.2 ≤ a.2)) a b →
    (fun a b : Result × ℚ => decide (b.2 ≤ a.2)) b c →
    (fun a b : Result × ℚ => decide (b.2 ≤ a.2)) a c := by
  intro a b c hab hbc
  simp only [decide_eq_true_eq] at hab hbc ⊢
  exact le_trans hbc hab

theorem scoreLe_total : ∀ a b : Result × ℚ,
    ((fun a b : Result × ℚ => decide (b.2 ≤ a.2)) a b
      || (fun a b : Result × ℚ => decide (b.2 ≤ a.2)) b a) = true := by
  intro a b
  simp only [Bool.or_eq_true, decide_eq_true_eq]
  exact le_total b.2 a.2

theorem filter_filter_self {α : Type} (p : α → Bool) (l : List α) :
    (l.filter p).filter p = l.filter p := by
  rw [List.filter_filter]
  apply List.filter_congr
  intro x _
  rw [Bool.and_self]

theorem sortByScoreDesc_stable (l : List (Result × ℚ)) (s : ℚ) :
    (sortByScoreDesc l).filter (fun x => decide (x.2 = s))
      = l.filter (fun x => decide (x.2 = s)) := by
  have hsub : List.Sublist (l.filter (fun x => decide (x.2 = s)))
      (sortByScoreDesc l) := by
    apply List.sublist_mergeSort scoreLe_trans scoreLe_total ?_
      (List.filter_sublist l)
    apply List.pairwise_of_forall_mem_list
    intro a ha b hb
    have ha' := (List.mem_filter.mp ha).2
    have hb' := (List.mem_filter.mp hb).2
    simp only [decide_eq_true_eq] at ha' hb'
    simp [ha', hb']
  have hsub2 : List.Sublist (l.filter (fun x => decide (x.2 = s)))
      ((sortByScoreDesc l).filter (fun x => decide (x.2 = s))) := by
    have h' := hsub.filter (fun x => decide (x.2 = s))
    rwa [filter_filter_self] at h'
  have hperm : List.Perm ((sortByScoreDesc l).filter (fun x => decide (x.2 = s)))
      (l.filter (fun x => decide (x.2 = s))) :=
    (List.mergeSort_perm l _).filter _
  exact (hsub2.eq_of_length hperm.length_eq.symm).symm

/-- C6: `get_top_results` returns at most `n` items; every returned pair
comes from an evaluation containing the criterion (with its score) and a
stored result under the same combination id; the returned list is sorted
descending by that score; the sort is stable — for every score value the
subsequence of pairs carrying it equals the collected subsequence, in
original mapping iteration order — and the output is the `n`-prefix of
that stable descending sort. -/
theorem get_top_results_spec
    (evaluations : List (String × List (String × ℚ)))
    (results : List (String × Result)) (criterion : String) (n : ℕ) :
    (get_top_results evaluations results criterion n).length ≤ n
    ∧ (∀ x ∈ get_top_results evaluations results criterion n,
        ∃ cid ev, (cid, ev) ∈ evaluations ∧ getVal ev criterion = some x.2
          ∧ getVal results cid = some x.1)
    ∧ ((get_top_results evaluations results criterion n).map Prod.snd).Sorted (· ≥ ·)
    ∧ (∀ s : ℚ, (sortByScoreDesc (scoredResults evaluations results criterion)).filter
          (fun x => decide (x.2 = s))
        = (scoredResults evaluations results criterion).filter
          (fun x => decide (x.2 = s)))
    ∧ (evaluations.isEmpty = false → results.isEmpty = false →
      get_top_results evaluations results criterion n
        = (sortByScoreDesc (scoredResults evaluations results criterion)).take n) := by
  by_cases hg : (evaluations.isEmpty || results.isEmpty) = true
  · refine ⟨?_, ?_, ?_, fun s => sortByScoreDesc_stable _ s, ?_⟩
    · simp [get_top_results, hg]
    · simp [get_top_results, hg]
    · simp [get_top_results, hg]
    · intro he hr
      rw [he, hr] at hg
      simp at hg
  · have hg' : (evaluations.isEmpty || results.isEmpty) = false := by
      simpa using hg
    have htop : get_top_results evaluations results criterion n
        = (sortByScoreDesc (scoredResults evaluations results criterion)).take n := by
      simp [get_top_results, hg']
    refine ⟨?_, ?_, ?_, fun s => sortByScoreDesc_stable _ s, fun _ _ => htop⟩
    · rw [htop]
      exact List.length_take_le n _
    · intro x hx
      rw [htop] at hx
      have hx' : x ∈ sortByScoreDesc (scoredResults evaluations results criterion) :=
        List.mem_of_mem_take hx
      have hx'' : x ∈ scoredResults evaluations results criterion := by
        have := List.mem_mergeSort.mp hx'
        exact this
      obtain ⟨ce, hce, hf⟩ := List.mem_filterMap.mp hx''
      cases hs : getVal ce.2 criterion with
      | none =>
        rw [hs] at hf
        simp at hf
      | some score =>
        cases hr : getVal results ce.1 with
        | none =>
          rw [hs, hr] at hf
          simp at hf
        | some r =>
          rw [hs, hr] at hf
          simp only [Option.some.injEq] at hf
          subst hf
          exact ⟨ce.1, ce.2, hce, hs, hr⟩
    · rw [htop]
      have hpair := List.sorted_mergeSort scoreLe_trans scoreLe_total
        (scoredResults evaluations results criterion)
      have hpair' := hpair.sublist (List.take_sublist n _)
      exact hpair'.map Prod.snd fun a b h => of_decide_eq_true h

/-- Concrete instantiation of `get_top_results_spec`: four evaluations,
one lacking the criterion, two tied on score. -/
theorem get_top_results_spec_witness :
    (get_top_results evalsW resultsW "overall" 2).length ≤ 2
    ∧ ((get_top_results evalsW resultsW "overall" 2).map Prod.snd).Sorted (· ≥ ·)
    ∧ get_top_results evalsW resultsW "overall" 2
        = (sortByScoreDesc (scoredResults evalsW resultsW "overall")).take 2 :=
  ⟨(get_top_results_spec evalsW resultsW "overall" 2).1,
   (get_top_results_spec evalsW resultsW "overall" 2).2.2.1,
   (get_top_results_spec evalsW resultsW "overall" 2).2.2.2.2 rfl rfl⟩

end ISEE
